import Mathlib

/-
Shallow embedding of `reporters.go` (package main of elimisteve/vegeta):
the TextReporter (spec: SummaryAggregator) and the GraphicalReporter
(spec: ChronologicalAggregator), together with the `Response` data model
they aggregate.

Modelling conventions:
* Go `*Response` pointers are `Option Response` where the nil pointer can
  occur (the TextReporter's backing slice); dereferencing nil is a runtime
  panic, modelled as `Option.none` results of the operations that do it.
* Go `interface{}`/`any` values stored in `container/list` elements are
  `GoAny`; the type assertion `.(*Response)` is `asResp`, and a failed
  assertion (panic) again surfaces as `none`.
* `uint64` arithmetic wraps modulo 2^64 (`wrapU64`); `int64` (i.e.
  `time.Duration`) arithmetic wraps into [-2^63, 2^63) (`wrapI64`).
* `float64` quotients are `GoFloat`: exact rationals plus the IEEE
  non-finite results produced by dividing by zero.  Every quotient any
  claim inspects (0/0, 2/4) is exactly representable in binary floating
  point, where rational and float arithmetic agree.
* `time.Time` instants are `Int` (nanoseconds since epoch);
  `a.Before(b)` is `a < b` and `a.After(b)` is `b < a`.
* `io.Writer` sinks are functions `String → Option String`: the sink
  consumes the rendered buffer and returns `some e` to signal the write
  error `e`, or `none` for a successful write.
-/

namespace Vegeta

/-- The `Response` struct: one measurement event (status code, timing,
byte counts, timestamp, optional error).  Field names follow the source. -/
structure Response where
  code : Nat
  timing : Int
  bytesOut : Nat
  bytesIn : Nat
  timestamp : Int
  err : Option String
deriving DecidableEq, Repr

/-- Modulus of Go `uint64` arithmetic (2^64). -/
def U64MOD : Nat := 18446744073709551616

/-- Half of `U64MOD` (2^63), the magnitude of `int64`'s lower bound. -/
def I64HALF : Int := 9223372036854775808

/-- Go `uint64` wrap-around. -/
def wrapU64 (n : Nat) : Nat := n % U64MOD

/-- Go `int64` (two's-complement) wrap-around into [-2^63, 2^63). -/
def wrapI64 (x : Int) : Int := (x + I64HALF) % 18446744073709551616 - I64HALF

/-! ### TextReporter (SummaryAggregator) -/

/-- The `TextReporter` struct: a slice of `*Response` (nil pointers are
`none`). -/
structure TextReporter where
  responses : List (Option Response)
deriving DecidableEq, Repr

/-- `NewTextReporter`: `make([]*Response, n)` builds a slice of LENGTH `n`
whose `n` entries are all nil pointers (not an empty slice of capacity
`n`). -/
def NewTextReporter (n : Nat) : TextReporter :=
  ⟨List.replicate n none⟩

/-- `TextReporter.Add`: appends the (non-nil) response to the slice. -/
def TextReporter.Add (r : TextReporter) (res : Response) : TextReporter :=
  ⟨r.responses ++ [some res]⟩

/-- Dereference every `*Response` of the slice, as the aggregation loop of
`TextReporter.Report` does; the first nil pointer panics (`none`). -/
def derefAll : List (Option Response) → Option (List Response)
  | [] => some []
  | none :: _ => none
  | some r :: rest => (derefAll rest).map (fun l => r :: l)

/-- Accumulation `totalTime += res.timing` of the report loop
(`time.Duration` = `int64`, wrapping). -/
def totalTime (l : List Response) : Int :=
  l.foldl (fun acc res => wrapI64 (acc + res.timing)) 0

/-- Accumulation `totalBytesOut += res.bytesOut` (`uint64`, wrapping). -/
def totalBytesOut (l : List Response) : Nat :=
  l.foldl (fun acc res => wrapU64 (acc + res.bytesOut)) 0

/-- Accumulation `totalBytesIn += res.bytesIn` (`uint64`, wrapping). -/
def totalBytesIn (l : List Response) : Nat :=
  l.foldl (fun acc res => wrapU64 (acc + res.bytesIn)) 0

/-- The success test `res.code >= 200 && res.code < 300`. -/
def isSuccess (res : Response) : Bool :=
  200 ≤ res.code && res.code < 300

/-- Accumulation `if success { totalSuccess++ }` (`uint64`, wrapping). -/
def totalSuccess (l : List Response) : Nat :=
  l.foldl (fun acc res => if isSuccess res then wrapU64 (acc + 1) else acc) 0

/-- The histogram map `histogram[res.code]++`, read at key `c`: number of
responses with status code `c` (a `uint64` count, wrapping). -/
def histogram (l : List Response) (c : Nat) : Nat :=
  wrapU64 (l.countP (fun res => res.code == c))

/-- Key insertion of a Go map/set: a key already present is left alone, a
new key joins the key set.  (First-insertion order is used as the model's
canonical enumeration order; Go's actual iteration order is unspecified,
and every claim reads the result as a set.) -/
def insertNew {α : Type} [DecidableEq α] (a : List α) (x : α) : List α :=
  if x ∈ a then a else a ++ [x]

/-- The key set of the `histogram` map after the report loop. -/
def histKeys (l : List Response) : List Nat :=
  (l.map Response.code).foldl insertNew []

/-- The key set of the `errors` map after the report loop:
`errors[res.err.Error()] = struct{}{}` for each response with non-nil
`err`. -/
def errorsOf (l : List Response) : List String :=
  (l.filterMap Response.err).foldl insertNew []

/-- A `float64` value as far as the reports inspect one: exact rational,
or a non-finite result of dividing by zero. -/
inductive GoFloat where
  | nan : GoFloat
  | inf : Bool → GoFloat
  | val : ℚ → GoFloat
deriving DecidableEq, Repr

/-- IEEE `float64` division as used on the (exactly representable)
operands of the report: `0/0 = NaN`, `±x/0 = ±Inf`, otherwise exact. -/
def f64div (a b : ℚ) : GoFloat :=
  if b = 0 then (if a = 0 then GoFloat.nan else GoFloat.inf (decide (0 < a)))
  else GoFloat.val (a / b)

/-- `float64(totalTime) / float64(totalRequests)` (the value that feeds
`time.Duration(...)`; the Go int64 conversion of a non-finite value is
implementation-defined and no claim inspects it). -/
def avgTime (l : List Response) : GoFloat :=
  f64div (totalTime l : ℚ) (l.length : ℚ)

/-- `float64(totalBytesOut) / float64(totalRequests)`. -/
def avgBytesOut (l : List Response) : GoFloat :=
  f64div (totalBytesOut l : ℚ) (l.length : ℚ)

/-- `float64(totalBytesIn) / float64(totalRequests)`. -/
def avgBytesIn (l : List Response) : GoFloat :=
  f64div (totalBytesIn l : ℚ) (l.length : ℚ)

/-- `float64(totalSuccess) / float64(totalRequests)`. -/
def avgSuccess (l : List Response) : GoFloat :=
  f64div (totalSuccess l : ℚ) (l.length : ℚ)

/-- Rendering stand-in for `%f`/`%s` of an average value.  No claim
depends on the digits, only on which line carries which value. -/
def fmtF : GoFloat → String
  | GoFloat.nan => "NaN"
  | GoFloat.inf true => "+Inf"
  | GoFloat.inf false => "-Inf"
  | GoFloat.val q => toString q

/-- `%3d`: right-justify in width 3. -/
def pad3 (n : Nat) : String :=
  if n < 10 then "  " ++ toString n
  else if n < 100 then " " ++ toString n
  else toString n

/-- The histogram section lines `fmt.Sprintf("%3d\t%d\n", code, count)`,
one per key of the histogram map. -/
def histLines (l : List Response) : List String :=
  (histKeys l).map (fun c => pad3 c ++ "\t" ++ toString (histogram l c))

/-- The lines of the `TextReporter.Report` buffer, in order; `""` entries
are the blank lines the two `fmt.Sprintln("\n...")` calls open with. -/
def reportLines (l : List Response) : List String :=
  ["Results: ",
   "Time      (avg): " ++ fmtF (avgTime l),
   "Bytes out (avg): " ++ fmtF (avgBytesOut l),
   "Bytes in  (avg): " ++ fmtF (avgBytesIn l),
   "Success ratio:   " ++ fmtF (avgSuccess l),
   "Requests:        " ++ toString l.length,
   "",
   "Status codes histogram:"]
  ++ histLines l
  ++ ["", "Error set:"]
  ++ errorsOf l

/-- Reassemble the newline-terminated buffer from its lines. -/
def renderBuf (ls : List String) : String :=
  ls.foldl (fun b s => b ++ s ++ "\x0a") ""

/-- `TextReporter.Report`: run the aggregation loop over the slice (panic
on a nil entry), render the buffer, hand it to the sink and return the
sink's error verdict. -/
def TextReporter.Report (r : TextReporter) (out : String → Option String) :
    Option (Option String) :=
  (derefAll r.responses).map (fun l => out (renderBuf (reportLines l)))

/-- `Report` with the receiver state threaded through: the method body
contains no assignment to `r.responses`, so the state component it leaves
behind is the one it received. -/
def TextReporter.ReportRun (r : TextReporter) (out : String → Option String) :
    Option (Option String) × TextReporter :=
  (r.Report out, r)

/-! ### GraphicalReporter (ChronologicalAggregator) -/

/-- A value stored in a `container/list` element (`interface{}`): either a
`*Response` or any other value. -/
inductive GoAny where
  | resp : Response → GoAny
  | other : Nat → GoAny
deriving DecidableEq, Repr

/-- The type assertion `e.Value.(*Response)`: panics (`none`) on anything
that is not a `*Response`. -/
def asResp : GoAny → Option Response
  | GoAny.resp r => some r
  | GoAny.other _ => none

/-- The `GraphicalReporter` struct: a `container/list` doubly-linked list,
modelled front-to-back. -/
structure GraphicalReporter where
  responses : List GoAny
deriving DecidableEq, Repr

/-- `NewGraphicalReporter`: an empty list. -/
def NewGraphicalReporter : GraphicalReporter := ⟨[]⟩

/-- The linear scan of `GraphicalReporter.Add`: walk from the front and
insert before the first element with a strictly later timestamp; when the
walk falls off the end, the loop exits and the response is NOT inserted. -/
def insertScan (res : Response) : List GoAny → Option (List GoAny)
  | [] => some []
  | e :: rest =>
    match asResp e with
    | none => none
    | some needle =>
      if res.timestamp < needle.timestamp then some (GoAny.resp res :: e :: rest)
      else (insertScan res rest).map (fun t => e :: t)

/-- `GraphicalReporter.Add` over the raw element list: empty-list push
front; `last.timestamp.Before(res.timestamp)` push back;
`first.timestamp.After(res.timestamp)` push front; otherwise the linear
scan.  Type assertions are forced in source order (tail, then head, then
each scanned element). -/
def grAddList (s : List GoAny) (res : Response) : Option (List GoAny) :=
  match s.getLast?, s.head? with
  | none, _ => some (GoAny.resp res :: s)
  | some _, none => none
  | some lastE, some firstE =>
    match asResp lastE with
    | none => none
    | some last =>
      if last.timestamp < res.timestamp then some (s ++ [GoAny.resp res])
      else
        match asResp firstE with
        | none => none
        | some first =>
          if res.timestamp < first.timestamp then some (GoAny.resp res :: s)
          else insertScan res s

/-- `GraphicalReporter.Add` (panics surface as `none`). -/
def GraphicalReporter.Add (r : GraphicalReporter) (res : Response) :
    Option GraphicalReporter :=
  (grAddList r.responses res).map (fun l => ⟨l⟩)

/-- Feed a list of responses to a reporter by successive `Add` calls. -/
def grAddAllFrom (s : GraphicalReporter) : List Response → Option GraphicalReporter
  | [] => some s
  | r :: rs =>
    match s.Add r with
    | none => none
    | some s' => grAddAllFrom s' rs

/-- Feed a list of responses to a fresh `NewGraphicalReporter`. -/
def grAddAll (rs : List Response) : Option GraphicalReporter :=
  grAddAllFrom NewGraphicalReporter rs

/-- Rendering stand-in for `fmt.Sprintln(r.timestamp)` (Go prints the
`time.Time`; the model prints the instant, injectively). -/
def fmtTime (t : Int) : String := toString t

/-- The traversal of `GraphicalReporter.Report`: one line per element,
front to back, asserting each element to `*Response`. -/
def grLines : List GoAny → Option (List String)
  | [] => some []
  | e :: rest =>
    match asResp e with
    | none => none
    | some x => (grLines rest).map (fun t => fmtTime x.timestamp :: t)

/-- `GraphicalReporter.Report`: traverse, render, write to the sink,
return the sink's error verdict (`none` result = assertion panic). -/
def GraphicalReporter.Report (r : GraphicalReporter) (out : String → Option String) :
    Option (Option String) :=
  (grLines r.responses).map (fun ls => out (renderBuf ls))

/-- The report traversal with the visited list rebuilt element by element:
the traversal only reads `Front`/`Next`/`Value`, so the list it leaves
behind is reconstructed unchanged. -/
def grTraverse : List GoAny → Option (List String) × List GoAny
  | [] => (some [], [])
  | e :: rest =>
    match grTraverse rest with
    | (ls?, rest') =>
      match asResp e with
      | none => (none, e :: rest')
      | some x => ((ls?).map (fun t => fmtTime x.timestamp :: t), e :: rest')

/-- `Report` with the receiver state threaded through, the stored list
being the one the traversal rebuilt. -/
def GraphicalReporter.ReportRun (r : GraphicalReporter) (out : String → Option String) :
    Option (Option String) × GraphicalReporter :=
  match grTraverse r.responses with
  | (ls?, s') => ((ls?).map (fun ls => out (renderBuf ls)), ⟨s'⟩)

/-- Every stored element is a `*Response` value. -/
def AllResp (s : List GoAny) : Prop :=
  ∀ e ∈ s, (asResp e).isSome

/-- Concrete response builder used by the concrete evaluations. -/
def mkResp (c : Nat) (ts : Int) (e : Option String) : Response :=
  ⟨c, 0, 0, 0, ts, e⟩

/-! ### Helper lemmas -/

theorem U64MOD_pos : 0 < U64MOD := by decide

theorem wrapU64_eq_of_lt {n : Nat} (h : n < U64MOD) : wrapU64 n = n :=
  Nat.mod_eq_of_lt h

/-- Stepwise `uint64`-wrapping accumulation equals the wrapped total. -/
theorem foldl_wrapU64 (f : Response → Nat) :
    ∀ (l : List Response) (a : Nat), a < U64MOD →
      l.foldl (fun acc res => wrapU64 (acc + f res)) a = wrapU64 (a + (l.map f).sum)
  | [], a, ha => by
    simpa [wrapU64] using (Nat.mod_eq_of_lt ha).symm
  | r :: l, a, _ => by
    have hlt : wrapU64 (a + f r) < U64MOD := Nat.mod_lt _ U64MOD_pos
    rw [List.foldl_cons, foldl_wrapU64 f l _ hlt]
    simp only [wrapU64, List.map_cons, List.sum_cons, U64MOD]
    omega

/-- Stepwise success counting equals the wrapped `countP`. -/
theorem foldl_success :
    ∀ (l : List Response) (a : Nat), a < U64MOD →
      l.foldl (fun acc res => if isSuccess res then wrapU64 (acc + 1) else acc) a =
        wrapU64 (a + l.countP isSuccess)
  | [], a, ha => by
    simpa [wrapU64] using (Nat.mod_eq_of_lt ha).symm
  | r :: l, a, ha => by
    rw [List.foldl_cons, List.countP_cons]
    by_cases hr : isSuccess r
    · have hlt : wrapU64 (a + 1) < U64MOD := Nat.mod_lt _ U64MOD_pos
      rw [if_pos hr, foldl_success l _ hlt]
      simp only [wrapU64, hr, if_pos, U64MOD]
      omega
    · rw [if_neg hr, foldl_success l a ha]
      simp [hr]

theorem totalSuccess_eq_countP (l : List Response) :
    totalSuccess l = wrapU64 (l.countP isSuccess) := by
  simpa using foldl_success l 0 U64MOD_pos

/-- `wrapI64` lands in the `int64` range. -/
theorem wrapI64_mem_range (x : Int) : -I64HALF ≤ wrapI64 x ∧ wrapI64 x < I64HALF := by
  unfold wrapI64 I64HALF
  constructor
  · have := Int.emod_nonneg (x + 9223372036854775808)
      (b := 18446744073709551616) (by decide)
    omega
  · have := Int.emod_lt_of_pos (x + 9223372036854775808)
      (b := 18446744073709551616) (by decide)
    omega

/-- Stepwise `int64`-wrapping accumulation equals the wrapped total. -/
theorem foldl_wrapI64 :
    ∀ (l : List Response) (a : Int), -I64HALF ≤ a → a < I64HALF →
      l.foldl (fun acc res => wrapI64 (acc + res.timing)) a =
        wrapI64 (a + (l.map Response.timing).sum)
  | [], a, h1, h2 => by
    simp only [List.foldl_nil, List.map_nil, List.sum_nil, Int.add_zero]
    unfold wrapI64 I64HALF at *
    rw [Int.emod_eq_of_lt (by omega) (by omega)]
    omega
  | r :: l, a, _, _ => by
    have hr := wrapI64_mem_range (a + r.timing)
    rw [List.foldl_cons, foldl_wrapI64 l _ hr.1 hr.2]
    simp only [List.map_cons, List.sum_cons]
    unfold wrapI64 I64HALF
    omega

theorem totalTime_eq_wrapI64 (l : List Response) :
    totalTime l = wrapI64 ((l.map Response.timing).sum) := by
  simpa using foldl_wrapI64 l 0 (by decide) (by decide)

theorem totalBytesOut_eq_wrapU64 (l : List Response) :
    totalBytesOut l = wrapU64 ((l.map Response.bytesOut).sum) := by
  simpa using foldl_wrapU64 Response.bytesOut l 0 U64MOD_pos

theorem totalBytesIn_eq_wrapU64 (l : List Response) :
    totalBytesIn l = wrapU64 ((l.map Response.bytesIn).sum) := by
  simpa using foldl_wrapU64 Response.bytesIn l 0 U64MOD_pos

/-- Membership in a map key set grown by `insertNew`. -/
theorem mem_insertNew {α : Type} [DecidableEq α] {a : List α} {c x : α} :
    x ∈ insertNew a c ↔ x ∈ a ∨ x = c := by
  unfold insertNew
  by_cases h : c ∈ a
  · rw [if_pos h]
    constructor
    · exact Or.inl
    · rintro (hx | rfl) <;> [exact hx; exact h]
  · rw [if_neg h]
    simp [List.mem_append]

theorem mem_foldl_insertNew {α : Type} [DecidableEq α] :
    ∀ (l acc : List α) (x : α), x ∈ l.foldl insertNew acc ↔ x ∈ acc ∨ x ∈ l
  | [], acc, x => by simp
  | c :: l, acc, x => by
    rw [List.foldl_cons, mem_foldl_insertNew l (insertNew acc c) x, mem_insertNew]
    simp [or_assoc]

/-- `insertNew` preserves `Nodup`. -/
theorem nodup_insertNew {α : Type} [DecidableEq α] {a : List α} (c : α)
    (h : a.Nodup) : (insertNew a c).Nodup := by
  unfold insertNew
  by_cases hc : c ∈ a
  · rwa [if_pos hc]
  · rw [if_neg hc]
    exact List.nodup_append.mpr ⟨h, List.nodup_singleton c, List.disjoint_singleton.mpr hc⟩

theorem nodup_foldl_insertNew {α : Type} [DecidableEq α] :
    ∀ (l acc : List α), acc.Nodup → (l.foldl insertNew acc).Nodup
  | [], _, h => h
  | c :: l, acc, h =>
    nodup_foldl_insertNew l (insertNew acc c) (nodup_insertNew c h)

theorem mem_errorsOf {l : List Response} {m : String} :
    m ∈ errorsOf l ↔ ∃ r ∈ l, r.err = some m := by
  rw [errorsOf, mem_foldl_insertNew]
  simp [List.mem_filterMap]

theorem mem_histKeys {l : List Response} {c : Nat} :
    c ∈ histKeys l ↔ c ∈ l.map Response.code := by
  rw [histKeys, mem_foldl_insertNew]
  simp

/-- The traversal of `GraphicalReporter.Report` leaves the list unchanged
and produces the same lines as `grLines`. -/
theorem grTraverse_eq : ∀ s : List GoAny, grTraverse s = (grLines s, s)
  | [] => rfl
  | e :: rest => by
    rw [grTraverse, grTraverse_eq rest]
    cases e <;> simp [asResp, grLines]

theorem allResp_nil : AllResp [] := by
  intro e he
  cases he

theorem allResp_cons {e : GoAny} {s : List GoAny} (h : AllResp (e :: s)) :
    (asResp e).isSome ∧ AllResp s :=
  ⟨h e (List.mem_cons_self e s), fun f hf => h f (List.mem_cons_of_mem e hf)⟩

theorem allResp_resp_cons {r : Response} {s : List GoAny} (h : AllResp s) :
    AllResp (GoAny.resp r :: s) := by
  intro f hf
  rcases List.mem_cons.mp hf with rfl | hf
  · rfl
  · exact h f hf

theorem allResp_append {s t : List GoAny} (hs : AllResp s) (ht : AllResp t) :
    AllResp (s ++ t) := by
  intro f hf
  rcases List.mem_append.mp hf with hf | hf
  · exact hs f hf
  · exact ht f hf

/-- On a list of genuine responses the scan's type assertions succeed and
the result again holds only responses. -/
theorem insertScan_isSome (res : Response) :
    ∀ s : List GoAny, AllResp s → ∃ t, insertScan res s = some t ∧ AllResp t
  | [], _ => ⟨[], rfl, allResp_nil⟩
  | e :: rest, h => by
    obtain ⟨he, hrest⟩ := allResp_cons h
    obtain ⟨needle, hn⟩ := Option.isSome_iff_exists.mp he
    by_cases hord : res.timestamp < needle.timestamp
    · exact ⟨GoAny.resp res :: e :: rest, by simp [insertScan, hn, hord],
        allResp_resp_cons h⟩
    · obtain ⟨t, ht, hat⟩ := insertScan_isSome res rest hrest
      refine ⟨e :: t, ?_, ?_⟩
      · simp [insertScan, hn, hord, ht]
      · intro f hf
        rcases List.mem_cons.mp hf with rfl | hf
        · exact he
        · exact hat f hf

/-- On a reporter holding only responses, `Add`'s type assertions succeed
and the new list again holds only responses. -/
theorem grAddList_isSome (res : Response) :
    ∀ s : List GoAny, AllResp s → ∃ t, grAddList s res = some t ∧ AllResp t
  | [], _ => ⟨[GoAny.resp res], rfl, allResp_resp_cons allResp_nil⟩
  | e :: rest, h => by
    have hne : e :: rest ≠ [] := by simp
    have hlast : (e :: rest).getLast? = some ((e :: rest).getLast hne) :=
      List.getLast?_eq_getLast _ hne
    have hlastmem : (e :: rest).getLast hne ∈ e :: rest := List.getLast_mem hne
    obtain ⟨last, hlastR⟩ := Option.isSome_iff_exists.mp (h _ hlastmem)
    obtain ⟨first, hfirstR⟩ := Option.isSome_iff_exists.mp (h e (List.mem_cons_self e rest))
    by_cases h1 : last.timestamp < res.timestamp
    · refine ⟨(e :: rest) ++ [GoAny.resp res], ?_, ?_⟩
      · simp [grAddList, hlast, hlastR, h1]
      · exact allResp_append h (allResp_resp_cons allResp_nil)
    · by_cases h2 : res.timestamp < first.timestamp
      · refine ⟨GoAny.resp res :: e :: rest, ?_, allResp_resp_cons h⟩
        simp [grAddList, hlast, hlastR, h1, hfirstR, h2]
      · obtain ⟨t, ht, hat⟩ := insertScan_isSome res (e :: rest) h
        refine ⟨t, ?_, hat⟩
        simp only [grAddList, hlast, List.head?_cons, hlastR, if_neg h1, hfirstR,
          if_neg h2]
        exact ht

/-- On a list of genuine responses the report traversal's type assertions
succeed. -/
theorem grLines_isSome :
    ∀ s : List GoAny, AllResp s → (grLines s).isSome
  | [], _ => rfl
  | e :: rest, h => by
    obtain ⟨he, hrest⟩ := allResp_cons h
    obtain ⟨x, hx⟩ := Option.isSome_iff_exists.mp he
    have := grLines_isSome rest hrest
    obtain ⟨t, ht⟩ := Option.isSome_iff_exists.mp this
    simp [grLines, hx, ht]

theorem grAddAllFrom_isSome :
    ∀ (rs : List Response) (g : GraphicalReporter), AllResp g.responses →
      ∃ g', grAddAllFrom g rs = some g' ∧ AllResp g'.responses
  | [], g, h => ⟨g, rfl, h⟩
  | r :: rs, g, h => by
    obtain ⟨t, ht, hat⟩ := grAddList_isSome r g.responses h
    have hadd : g.Add r = some ⟨t⟩ := by
      simp [GraphicalReporter.Add, ht]
    obtain ⟨g', hg', hag'⟩ := grAddAllFrom_isSome rs ⟨t⟩ hat
    exact ⟨g', by simp [grAddAllFrom, hadd, hg'], hag'⟩

/-! ### Claim theorems -/

/-- C1: the claim states that `Add` inserts every event with no failure
mode and `Report` emits one line per added event in non-decreasing
timestamp order.  Evaluating the code at the failing input: of two events
added with the same timestamp 5, the second is silently dropped by `Add`
(the scan falls off the end of the list without inserting), the reporter
stores a single element, and `Report` emits a single line for two added
events. -/
theorem C1_second_equal_max_timestamp_event_dropped :
    grAddAll [mkResp 200 5 none, mkResp 404 5 none] =
      some ⟨[GoAny.resp (mkResp 200 5 none)]⟩ ∧
    grLines [GoAny.resp (mkResp 200 5 none)] = some [fmtTime 5] := by
  constructor
  · rfl
  · rfl

/-- C2: the claim states that `NewTextReporter n` starts empty for every
`n ≥ 0` and that its `Report` renders `Requests: 0`.  Evaluating the code
at the failing input `n = 1`: `make([]*Response, n)` fills the slice with
`n` nil pointers, so the reporter starts with one stored (nil) entry and
`Report` dereferences it and panics for every sink; only `n = 0` starts
empty. -/
theorem C2_pre_sized_reporter_holds_nil_entries_and_report_panics :
    (NewTextReporter 1).responses = [none] ∧
    (∀ out : String → Option String, (NewTextReporter 1).Report out = none) ∧
    (NewTextReporter 0).responses = [] := by
  refine ⟨rfl, fun out => rfl, rfl⟩

/-- C3: the claim states that an event whose timestamp equals stored ones
is inserted after all existing equal-timestamp events.  Evaluating the
code at the failing input (timestamps 1, 3, 1, 3 with codes 1, 2, 3, 4):
the third event (code 3, timestamp 1) is indeed inserted after the
existing timestamp-1 event, but the fourth event (code 4, timestamp 3),
whose timestamp equals the current maximum, is not inserted at all — the
final sequence holds three elements for four added events. -/
theorem C3_equal_timestamp_tie_dropped_at_maximum :
    grAddAll [mkResp 1 1 none, mkResp 2 3 none, mkResp 3 1 none, mkResp 4 3 none] =
      some ⟨[GoAny.resp (mkResp 1 1 none), GoAny.resp (mkResp 3 1 none),
             GoAny.resp (mkResp 2 3 none)]⟩ := by
  rfl

/-- C4: `Report` on a SummaryAggregator with zero added events performs
the divisions 0/0, yielding NaN averages rather than failing; the output
contains the line `Requests:        0`, and the call returns exactly the
sink's verdict (no error when the sink accepts the write). -/
theorem C4_empty_report_succeeds_with_nan_averages :
    avgTime [] = GoFloat.nan ∧
    avgBytesOut [] = GoFloat.nan ∧
    avgBytesIn [] = GoFloat.nan ∧
    avgSuccess [] = GoFloat.nan ∧
    "Requests:        0" ∈ reportLines [] ∧
    (NewTextReporter 0).Report (fun _ => none) = some none ∧
    (∀ out : String → Option String,
      (NewTextReporter 0).Report out = some (out (renderBuf (reportLines [])))) := by
  refine ⟨rfl, rfl, rfl, rfl, by decide, rfl, fun out => rfl⟩

/-- C5: for any two permutations of the same multiset of events, the
summary report's request count, the four averages, the histogram viewed
as a set of code-to-count pairs, and the error set viewed as a set of
strings all agree. -/
theorem C5_summary_report_permutation_invariant (l₁ l₂ : List Response)
    (h : l₁.Perm l₂) :
    l₁.length = l₂.length ∧
    totalTime l₁ = totalTime l₂ ∧
    totalBytesOut l₁ = totalBytesOut l₂ ∧
    totalBytesIn l₁ = totalBytesIn l₂ ∧
    totalSuccess l₁ = totalSuccess l₂ ∧
    avgTime l₁ = avgTime l₂ ∧
    avgBytesOut l₁ = avgBytesOut l₂ ∧
    avgBytesIn l₁ = avgBytesIn l₂ ∧
    avgSuccess l₁ = avgSuccess l₂ ∧
    (∀ c, histogram l₁ c = histogram l₂ c) ∧
    (∀ c, c ∈ histKeys l₁ ↔ c ∈ histKeys l₂) ∧
    (∀ m, m ∈ errorsOf l₁ ↔ m ∈ errorsOf l₂) := by
  have hlen := h.length_eq
  have htime : totalTime l₁ = totalTime l₂ := by
    rw [totalTime_eq_wrapI64, totalTime_eq_wrapI64, (h.map Response.timing).sum_eq]
  have hbo : totalBytesOut l₁ = totalBytesOut l₂ := by
    rw [totalBytesOut_eq_wrapU64, totalBytesOut_eq_wrapU64,
      (h.map Response.bytesOut).sum_eq]
  have hbi : totalBytesIn l₁ = totalBytesIn l₂ := by
    rw [totalBytesIn_eq_wrapU64, totalBytesIn_eq_wrapU64,
      (h.map Response.bytesIn).sum_eq]
  have hs : totalSuccess l₁ = totalSuccess l₂ := by
    rw [totalSuccess_eq_countP, totalSuccess_eq_countP, h.countP_eq]
  refine ⟨hlen, htime, hbo, hbi, hs, ?_, ?_, ?_, ?_, ?_, ?_, ?_⟩
  · rw [avgTime, avgTime, htime, hlen]
  · rw [avgBytesOut, avgBytesOut, hbo, hlen]
  · rw [avgBytesIn, avgBytesIn, hbi, hlen]
  · rw [avgSuccess, avgSuccess, hs, hlen]
  · intro c
    rw [histogram, histogram, h.countP_eq]
  · intro c
    rw [mem_histKeys, mem_histKeys]
    exact (h.map Response.code).mem_iff
  · intro m
    rw [mem_errorsOf, mem_errorsOf]
    constructor
    · rintro ⟨r, hr, hm⟩
      exact ⟨r, h.mem_iff.mp hr, hm⟩
    · rintro ⟨r, hr, hm⟩
      exact ⟨r, h.mem_iff.mpr hr, hm⟩

/-- C5 witness: the permutation invariance applied to the two-element
lists `[a, b]` and `[b, a]` at concrete responses. -/
theorem C5_summary_report_permutation_invariant_witness :
    totalTime [mkResp 200 7 (some "x"), mkResp 404 9 none] =
      totalTime [mkResp 404 9 none, mkResp 200 7 (some "x")] ∧
    avgSuccess [mkResp 200 7 (some "x"), mkResp 404 9 none] =
      avgSuccess [mkResp 404 9 none, mkResp 200 7 (some "x")] :=
  ⟨(C5_summary_report_permutation_invariant _ _
      (List.Perm.swap (mkResp 404 9 none) (mkResp 200 7 (some "x")) [])).2.1,
   (C5_summary_report_permutation_invariant _ _
      (List.Perm.swap (mkResp 404 9 none) (mkResp 200 7 (some "x")) [])).2.2.2.2.2.2.2.2.1⟩

/-- C6: the success counter counts exactly the events with status code in
[200, 300) (whenever fewer than 2^64 events were added, so the `uint64`
counter cannot wrap), the success ratio is that count divided by the
total event count, and on the concrete codes 200, 201, 404, 500 the ratio
is 1/2. -/
theorem C6_success_count_and_ratio (l : List Response) (h : l.length < U64MOD) :
    totalSuccess l = l.countP isSuccess ∧
    avgSuccess l = f64div (l.countP isSuccess : ℚ) (l.length : ℚ) ∧
    avgSuccess [mkResp 200 0 none, mkResp 201 0 none, mkResp 404 0 none,
        mkResp 500 0 none] = GoFloat.val (1 / 2) := by
  have hc : totalSuccess l = l.countP isSuccess := by
    rw [totalSuccess_eq_countP]
    exact wrapU64_eq_of_lt (lt_of_le_of_lt (List.countP_le_length _) h)
  refine ⟨hc, ?_, ?_⟩
  · rw [avgSuccess, hc]
  · have h1 : totalSuccess [mkResp 200 0 none, mkResp 201 0 none, mkResp 404 0 none,
        mkResp 500 0 none] = 2 := by decide
    have h2 : ([mkResp 200 0 none, mkResp 201 0 none, mkResp 404 0 none,
        mkResp 500 0 none] : List Response).length = 4 := by decide
    rw [avgSuccess, h1, h2]
    unfold f64div
    rw [if_neg (by norm_num)]
    congr 1
    norm_num

/-- C6 witness: the success-count characterisation applied to the
concrete four-event list. -/
theorem C6_success_count_and_ratio_witness :
    totalSuccess [mkResp 200 0 none, mkResp 201 0 none, mkResp 404 0 none,
        mkResp 500 0 none] =
      List.countP isSuccess [mkResp 200 0 none, mkResp 201 0 none,
        mkResp 404 0 none, mkResp 500 0 none] :=
  (C6_success_count_and_ratio [mkResp 200 0 none, mkResp 201 0 none,
      mkResp 404 0 none, mkResp 500 0 none] (by decide)).1

/-- C7: the error set is deduplicated by message: the three events with
error texts "timeout", "timeout", "refused" yield exactly the two-element
set, rendered as exactly two error lines; in general the error set never
holds a duplicate, and it holds a message exactly when some added event
carried it. -/
theorem C7_error_set_deduplicated :
    errorsOf [mkResp 0 0 (some "timeout"), mkResp 0 0 (some "timeout"),
        mkResp 0 0 (some "refused")] = ["timeout", "refused"] ∧
    (∀ l : List Response, (errorsOf l).Nodup) ∧
    (∀ (l : List Response) (m : String),
      m ∈ errorsOf l ↔ ∃ r ∈ l, r.err = some m) := by
  refine ⟨by decide, ?_, ?_⟩
  · intro l
    exact nodup_foldl_insertNew _ [] List.nodup_nil
  · intro l m
    exact mem_errorsOf

/-- C8: `Report` never mutates reporter state: for both reporters, with
the receiver state threaded through the call, the state left behind
equals the state received (for the ChronologicalAggregator the traversal
rebuilds the stored list element by element) and the reported verdict is
the ordinary `Report` result, for every sink. -/
theorem C8_report_does_not_mutate_state (r : TextReporter)
    (g : GraphicalReporter) (out : String → Option String) :
    (r.ReportRun out).2 = r ∧
    (r.ReportRun out).1 = r.Report out ∧
    (g.ReportRun out).2 = g ∧
    (g.ReportRun out).1 = g.Report out := by
  refine ⟨rfl, rfl, ?_, ?_⟩
  · show (match grTraverse g.responses with
      | (ls?, s') => ((ls?).map (fun ls => out (renderBuf ls)),
          (⟨s'⟩ : GraphicalReporter))).2 = g
    rw [grTraverse_eq]
  · show (match grTraverse g.responses with
      | (ls?, s') => ((ls?).map (fun ls => out (renderBuf ls)),
          (⟨s'⟩ : GraphicalReporter))).1 = g.Report out
    rw [grTraverse_eq]
    rfl

/-- C9: the success count is determined solely by the status code: an
event whose code lies in [200, 300) and whose `err` is present both
increments the success counter and contributes its message to the error
set. -/
theorem C9_success_independent_of_err (res : Response) (l : List Response)
    (m : String) (h1 : 200 ≤ res.code) (h2 : res.code < 300)
    (h3 : res.err = some m) :
    totalSuccess (l ++ [res]) = wrapU64 (totalSuccess l + 1) ∧
    m ∈ errorsOf (l ++ [res]) := by
  constructor
  · have hsucc : isSuccess res = true := by
      unfold isSuccess
      simp [h1, h2]
    rw [totalSuccess, List.foldl_append, List.foldl_cons, List.foldl_nil, hsucc]
    rfl
  · rw [mem_errorsOf]
    exact ⟨res, List.mem_append.mpr (Or.inr (List.mem_singleton.mpr rfl)), h3⟩

/-- C9 witness: a 204 event carrying the error message "oops" appended
after a 500 event both increments the success count and lands in the
error set. -/
theorem C9_success_independent_of_err_witness :
    totalSuccess ([mkResp 500 0 none] ++ [mkResp 204 0 (some "oops")]) =
      wrapU64 (totalSuccess [mkResp 500 0 none] + 1) ∧
    "oops" ∈ errorsOf ([mkResp 500 0 none] ++ [mkResp 204 0 (some "oops")]) :=
  C9_success_independent_of_err (mkResp 204 0 (some "oops")) [mkResp 500 0 none]
    "oops" (by decide) (by decide) rfl

/-- C10: every element stored in the ChronologicalAggregator's list was
pushed by `Add` and is a `*Response` value, so for every sequence of
`Add` calls on a fresh `NewGraphicalReporter` all type assertions of
`Add` succeed, and the `Report` traversal's assertions succeed as well. -/
theorem C10_type_assertions_always_succeed (rs : List Response) :
    ∃ g : GraphicalReporter, grAddAll rs = some g ∧
      AllResp g.responses ∧ (grLines g.responses).isSome := by
  obtain ⟨g, hg, hag⟩ := grAddAllFrom_isSome rs NewGraphicalReporter allResp_nil
  exact ⟨g, hg, hag, grLines_isSome _ hag⟩

end Vegeta
